import Mathlib

/-!
# QQuickTextEdit: cursor, selection, interaction flags, alignment and editing

A shallow embedding of the parts of `qquicktextedit.cpp` that decide how the
TextEdit item selects text, answers `readOnly` / `selectByKeyboard`, mirrors its
horizontal alignment and edits its document, together with the theorems that
settle the documented behaviour of those functions.

The item talks to three Qt classes whose code lives outside the translated
file: `QTextCursor`, `QTextDocument` and `QQuickTextControl`.  They are
modelled by their data: a cursor is an anchor and a position, a document is the
sequence of its characters as `toPlainText` reads them (one cursor position
before each character and one after the last; a block separator reads as a
line feed), and the control is the cursor it owns plus its text interaction
flags.  Layout, painting and the notifications the control raises
on its own are not part of the model.
-/

namespace QtQuick

/-! ## QTextCursor -/

/-- The two move modes of `QTextCursor`. -/
inductive MoveMode where
  | MoveAnchor
  | KeepAnchor
  deriving DecidableEq, Repr

/-- The move operations `moveCursorSelection` uses. -/
inductive MoveOperation where
  | StartOfWord
  | PreviousWord
  | EndOfWord
  | PreviousCharacter
  deriving DecidableEq, Repr

/-- A text cursor: the anchor stays where the selection started, the position
is where the cursor is. -/
structure QTextCursor where
  anchor : Int
  position : Int
  deriving DecidableEq, Repr

/-- Word and character navigation of the text layout, as the map from the
position a move starts at to the position it ends at. -/
structure WordMotion where
  startOfWord : Int → Int
  previousWord : Int → Int
  endOfWord : Int → Int
  previousCharacter : Int → Int

namespace WordMotion

/-- Where a move operation takes a cursor that stands at `x`. -/
def target (w : WordMotion) : MoveOperation → Int → Int
  | .StartOfWord => w.startOfWord
  | .PreviousWord => w.previousWord
  | .EndOfWord => w.endOfWord
  | .PreviousCharacter => w.previousCharacter

/-- The only facts assumed of word navigation: `StartOfWord` and `PreviousWord`
never move forward, `EndOfWord` never moves backward. -/
def Directed (w : WordMotion) : Prop :=
  (∀ x, w.startOfWord x ≤ x) ∧ (∀ x, w.previousWord x ≤ x) ∧ (∀ x, x ≤ w.endOfWord x)

end WordMotion

/-! ### Word navigation on a line of blank-separated words

The layout's word navigation, written out for a document that is one line of
words separated by blanks (no punctuation, no line breaks).  It gives the
abstract `WordMotion` a concrete inhabitant to evaluate. -/

/-- The loop `while (pos > 0 && p(pos - 1)) --pos`. -/
def skipBackward (p : Nat → Bool) : Nat → Nat
  | 0 => 0
  | n + 1 => if p n then skipBackward p n else n + 1

/-- The loop `while (pos < len && p(pos)) ++pos`, with `fuel = len - pos`. -/
def skipForwardAux (p : Nat → Bool) : Nat → Nat → Nat
  | 0, pos => pos
  | fuel + 1, pos => if p pos then skipForwardAux p fuel (pos + 1) else pos

/-- The loop `while (pos < len && p(pos)) ++pos`. -/
def skipForward (p : Nat → Bool) (len pos : Nat) : Nat :=
  skipForwardAux p (len - pos) pos

/-- Whether the character at index `i` is a blank. -/
def isSpaceAt (text : List Char) (i : Nat) : Bool := text.getD i 'x' == ' '

/-- The previous word boundary: blanks are skipped backwards, then the word
in front of them. -/
def previousCursorPosition (text : List Char) (oldPos : Nat) : Nat :=
  if oldPos = 0 ∨ oldPos > text.length then oldPos
  else
    let oldPos := skipBackward (isSpaceAt text) oldPos
    skipBackward (fun i => !isSpaceAt text i) oldPos

/-- The move `StartOfWord` from `x`: stays at the start of the text and behind
a trailing blank, otherwise goes to the boundary before the character at `x`. -/
def lineStartOfWord (text : List Char) (x : Nat) : Nat :=
  if x = 0 then x
  else if x = text.length ∧ isSpaceAt text (x - 1) then x
  else previousCursorPosition text (if x < text.length then x + 1 else x)

/-- The move `EndOfWord` from `x`: to the end of the run of non-blanks at `x`. -/
def lineEndOfWord (text : List Char) (x : Nat) : Nat :=
  if x ≥ text.length then x
  else skipForward (fun i => !isSpaceAt text i) text.length x

/-- A function on positions of the line, extended to all integers: negative
positions do not occur and are left alone. -/
def onPositions (f : Nat → Nat) (x : Int) : Int :=
  if x < 0 then x else (f x.toNat : Int)

/-- The word navigation of a line of blank-separated words. -/
def blankSeparated (text : List Char) : WordMotion where
  startOfWord := onPositions (lineStartOfWord text)
  previousWord := onPositions (previousCursorPosition text)
  endOfWord := onPositions (lineEndOfWord text)
  previousCharacter := onPositions (fun x => x - 1)

namespace QTextCursor

/-- `QTextCursor::selectionStart`: the smaller of position and anchor. -/
def selectionStart (c : QTextCursor) : Int := min c.position c.anchor

/-- `QTextCursor::selectionEnd`: the larger of position and anchor. -/
def selectionEnd (c : QTextCursor) : Int := max c.position c.anchor

/-- `QTextCursor::hasSelection`. -/
def hasSelection (c : QTextCursor) : Bool := c.position != c.anchor

/-- Model of `QTextCursor::setPosition(pos, mode)` (Qt's code) on a document of
`characterCount` positions: a position outside the document is refused and the
cursor stays; otherwise the position moves and, with `MoveAnchor`, the anchor
with it. -/
def setPosition (characterCount : Int) (c : QTextCursor) (pos : Int) (m : MoveMode) :
    QTextCursor :=
  if pos < 0 ∨ pos ≥ characterCount then c
  else
    match m with
    | .MoveAnchor => { anchor := pos, position := pos }
    | .KeepAnchor => { c with position := pos }

/-- Model of `QTextCursor::movePosition(op, mode)` (Qt's code): the position
goes where the layout says the operation ends; with `MoveAnchor` the anchor
follows. -/
def movePosition (w : WordMotion) (c : QTextCursor) (op : MoveOperation) (m : MoveMode) :
    QTextCursor :=
  let newPosition := w.target op c.position
  match m with
  | .MoveAnchor => { anchor := newPosition, position := newPosition }
  | .KeepAnchor => { c with position := newPosition }

/-- A cursor of a document with `characterCount` positions points inside it. -/
def Valid (characterCount : Int) (c : QTextCursor) : Prop :=
  0 ≤ c.anchor ∧ c.anchor < characterCount ∧ 0 ≤ c.position ∧ c.position < characterCount

instance (characterCount : Int) (c : QTextCursor) : Decidable (Valid characterCount c) := by
  unfold Valid
  infer_instance

end QTextCursor

/-! ## The item's state -/

/-- `QQuickTextEdit::HAlignment`. -/
inductive HAlignment where
  | AlignLeft
  | AlignRight
  | AlignHCenter
  | AlignJustify
  deriving DecidableEq, Repr

/-- `QQuickTextEdit::TextFormat`. -/
inductive TextFormat where
  | PlainText
  | RichText
  | AutoText
  deriving DecidableEq, Repr

/-- `QQuickTextEdit::SelectionMode`. -/
inductive SelectionMode where
  | SelectCharacters
  | SelectWords
  deriving DecidableEq, Repr

/-- The signals the translated functions emit. -/
inductive Signal where
  | selectionStartChanged
  | selectionEndChanged
  | selectByKeyboardChanged (enabled : Bool)
  | selectByMouseChanged (enabled : Bool)
  | readOnlyChanged (r : Bool)
  | canPasteChanged
  deriving DecidableEq, Repr

/-- Bits of `Qt::TextInteractionFlags`. -/
def TextSelectableByMouse : Nat := 1
/-- Bit of `Qt::TextInteractionFlags`. -/
def TextSelectableByKeyboard : Nat := 2
/-- Bit of `Qt::TextInteractionFlags`. -/
def LinksAccessibleByMouse : Nat := 4
/-- Bit of `Qt::TextInteractionFlags`. -/
def TextEditable : Nat := 16

/-- The value of `flags & ~bit` for 32-bit flags. -/
def clearFlag (flags bit : Nat) : Nat := flags &&& (4294967295 ^^^ bit)

/-- The value of `flags & bit` read as a boolean. -/
def testFlag (flags bit : Nat) : Bool := flags &&& bit != 0

/-- The fields of `QQuickTextEditPrivate` (and of the document and control it
owns) that the translated functions read or write. -/
structure QQuickTextEditPrivate where
  /-- the characters of `document` -/
  text : List Char
  /-- `control->textCursor()` -/
  cursor : QTextCursor
  /-- `control->textInteractionFlags()` -/
  interactionFlags : Nat
  selectByMouse : Bool
  selectByKeyboard : Bool
  selectByKeyboardSet : Bool
  /-- `QQuickItem::keepMouseGrab()` -/
  keepMouseGrab : Bool
  /-- the item flag `ItemAcceptsInputMethod` -/
  acceptsInputMethod : Bool
  canPaste : Bool
  canPasteValid : Bool
  /-- whether the clipboard holds something the control could insert -/
  clipboardInsertable : Bool
  richText : Bool
  format : TextFormat
  hAlign : HAlignment
  hAlignImplicit : Bool
  effectiveLayoutMirror : Bool
  lastSelectionStart : Int
  lastSelectionEnd : Int
  hadSelection : Bool
  /-- the signals emitted so far, oldest first -/
  emitted : List Signal
  deriving DecidableEq, Repr

namespace QQuickTextEdit

/-- `QTextDocument::characterCount()`: the characters and the terminating one. -/
def characterCount (d : QQuickTextEditPrivate) : Int := (d.text.length : Int) + 1

/-- `QQuickTextEdit::length()`. -/
def length (d : QQuickTextEditPrivate) : Int := max 0 (characterCount d - 1)

/-- `QQuickTextEdit::cursorPosition()`. -/
def cursorPosition (d : QQuickTextEditPrivate) : Int := d.cursor.position

/-- `QQuickTextEdit::selectionStart()`. -/
def selectionStart (d : QQuickTextEditPrivate) : Int := d.cursor.selectionStart

/-- `QQuickTextEdit::selectionEnd()`. -/
def selectionEnd (d : QQuickTextEditPrivate) : Int := d.cursor.selectionEnd

/-- `emit signal`. -/
def emit (d : QQuickTextEditPrivate) (s : Signal) : QQuickTextEditPrivate :=
  { d with emitted := d.emitted ++ [s] }

/-- Model of `QQuickTextControl::setTextCursor` (the control's code is not among
the sources): the control takes the cursor. -/
def setTextCursor (d : QQuickTextEditPrivate) (cursor : QTextCursor) : QQuickTextEditPrivate :=
  { d with cursor := cursor }

/-- `QQuickTextEdit::updateSelection()`: remembers the selection's ends and
announces the ones that moved (the repaint it schedules is not modelled). -/
def updateSelection (d : QQuickTextEditPrivate) : QQuickTextEditPrivate :=
  let d := { d with hadSelection := d.cursor.hasSelection }
  let d :=
    if d.lastSelectionStart ≠ d.cursor.selectionStart then
      emit { d with lastSelectionStart := d.cursor.selectionStart } .selectionStartChanged
    else d
  if d.lastSelectionEnd ≠ d.cursor.selectionEnd then
    emit { d with lastSelectionEnd := d.cursor.selectionEnd } .selectionEndChanged
  else d

/-- `QQuickTextEdit::setCursorPosition(pos)` (the update of the cursor rectangle
is layout and not modelled). -/
def setCursorPosition (d : QQuickTextEditPrivate) (pos : Int) : QQuickTextEditPrivate :=
  if pos < 0 ∨ pos ≥ characterCount d then d
  else
    let cursor := d.cursor
    if cursor.position = pos ∧ cursor.anchor = pos then d
    else
      let cursor := cursor.setPosition (characterCount d) pos .MoveAnchor
      setTextCursor d cursor

/-- `QQuickTextEdit::select(start, end)`. -/
def select (d : QQuickTextEditPrivate) (start end_ : Int) : QQuickTextEditPrivate :=
  if start < 0 ∨ end_ < 0 ∨ start ≥ characterCount d ∨ end_ ≥ characterCount d then d
  else
    let cursor := d.cursor
    let cursor := cursor.setPosition (characterCount d) start .MoveAnchor
    let cursor := cursor.setPosition (characterCount d) end_ .KeepAnchor
    let d := setTextCursor d cursor
    updateSelection d

/-- `QQuickTextEdit::moveCursorSelection(pos)`, the overload without a mode. -/
def moveCursorSelectionPos (d : QQuickTextEditPrivate) (pos : Int) : QQuickTextEditPrivate :=
  let cursor := d.cursor
  if cursor.position = pos then d
  else
    let cursor := cursor.setPosition (characterCount d) pos .KeepAnchor
    setTextCursor d cursor

/-- `QQuickTextEdit::moveCursorSelection(pos, mode)`. -/
def moveCursorSelection (w : WordMotion) (d : QQuickTextEditPrivate) (pos : Int)
    (mode : SelectionMode) : QQuickTextEditPrivate :=
  let n := characterCount d
  let cursor := d.cursor
  if cursor.position = pos then d
  else
    let cursor :=
      if mode = .SelectCharacters then
        cursor.setPosition n pos .KeepAnchor
      else if cursor.anchor < pos ∨ (cursor.anchor = pos ∧ cursor.position < pos) then
        let cursor :=
          if cursor.anchor > cursor.position then
            let cursor := cursor.setPosition n cursor.anchor .MoveAnchor
            let cursor := cursor.movePosition w .StartOfWord .KeepAnchor
            if cursor.position = cursor.anchor then
              cursor.movePosition w .PreviousWord .MoveAnchor
            else
              cursor.setPosition n cursor.position .MoveAnchor
          else
            let cursor := cursor.setPosition n cursor.anchor .MoveAnchor
            cursor.movePosition w .StartOfWord .MoveAnchor
        let cursor := cursor.setPosition n pos .KeepAnchor
        let cursor := cursor.movePosition w .StartOfWord .KeepAnchor
        if cursor.position ≠ pos then
          cursor.movePosition w .EndOfWord .KeepAnchor
        else cursor
      else if cursor.anchor > pos ∨ (cursor.anchor = pos ∧ cursor.position > pos) then
        let cursor :=
          if cursor.anchor < cursor.position then
            let cursor := cursor.setPosition n cursor.anchor .MoveAnchor
            cursor.movePosition w .EndOfWord .MoveAnchor
          else
            let cursor := cursor.setPosition n cursor.anchor .MoveAnchor
            let cursor := cursor.movePosition w .PreviousCharacter .KeepAnchor
            let cursor := cursor.movePosition w .EndOfWord .KeepAnchor
            if cursor.position ≠ cursor.anchor then
              let cursor := cursor.setPosition n cursor.anchor .MoveAnchor
              cursor.movePosition w .EndOfWord .MoveAnchor
            else cursor
        let cursor := cursor.setPosition n pos .KeepAnchor
        let cursor := cursor.movePosition w .EndOfWord .KeepAnchor
        if cursor.position ≠ pos then
          let cursor := cursor.movePosition w .PreviousCharacter .KeepAnchor
          cursor.movePosition w .StartOfWord .KeepAnchor
        else cursor
      else cursor
    setTextCursor d cursor

/-! ### Interaction flags: `readOnly`, `selectByKeyboard`, `selectByMouse` -/

/-- Modelled from the spec: the member initialisers of `QQuickTextEditPrivate`,
whose header is not among the sources, as far as the documentation in
`qquicktextedit.cpp` states them: `selectByMouse` defaults to false,
`selectByKeyboard` follows `readOnly` until it is set, the text format defaults
to `PlainText`, the alignment is `AlignLeft` and implicit, nothing is selected,
nothing was emitted. -/
def constructed : QQuickTextEditPrivate where
  text := []
  cursor := { anchor := 0, position := 0 }
  interactionFlags := 0
  selectByMouse := false
  selectByKeyboard := false
  selectByKeyboardSet := false
  keepMouseGrab := false
  acceptsInputMethod := false
  canPaste := false
  canPasteValid := false
  clipboardInsertable := false
  richText := false
  format := .PlainText
  hAlign := .AlignLeft
  hAlignImplicit := true
  effectiveLayoutMirror := false
  lastSelectionStart := 0
  lastSelectionEnd := 0
  hadSelection := false
  emitted := []

/-- `QQuickTextEditPrivate::init()`: the item accepts input methods, gets an
empty document and a control whose cursor is at its start, and the control's
interaction flags are set. -/
def init (d : QQuickTextEditPrivate) : QQuickTextEditPrivate :=
  { d with
    acceptsInputMethod := true
    text := []
    cursor := { anchor := 0, position := 0 }
    interactionFlags := LinksAccessibleByMouse ||| TextSelectableByKeyboard ||| TextEditable }

/-- `QQuickTextEdit::isReadOnly()`. -/
def isReadOnly (d : QQuickTextEditPrivate) : Bool :=
  !(testFlag d.interactionFlags TextEditable)

/-- `QQuickTextEdit::selectByKeyboard()`. -/
def selectByKeyboard (d : QQuickTextEditPrivate) : Bool :=
  if d.selectByKeyboardSet then d.selectByKeyboard
  else !isReadOnly d

/-- `QQuickTextEdit::setSelectByKeyboard(on)`. -/
def setSelectByKeyboard (d : QQuickTextEditPrivate) (on_ : Bool) : QQuickTextEditPrivate :=
  let was := selectByKeyboard d
  if !d.selectByKeyboardSet || was != on_ then
    let d := { d with selectByKeyboardSet := true }
    let d := { d with selectByKeyboard := on_ }
    let d :=
      if on_ then
        { d with interactionFlags := d.interactionFlags ||| TextSelectableByKeyboard }
      else
        { d with interactionFlags := clearFlag d.interactionFlags TextSelectableByKeyboard }
    emit d (.selectByKeyboardChanged on_)
  else d

/-- `QQuickTextEdit::selectByMouse()`. -/
def selectByMouse (d : QQuickTextEditPrivate) : Bool := d.selectByMouse

/-- `QQuickTextEdit::setSelectByMouse(on)`. -/
def setSelectByMouse (d : QQuickTextEditPrivate) (on_ : Bool) : QQuickTextEditPrivate :=
  if d.selectByMouse != on_ then
    let d := { d with selectByMouse := on_ }
    let d := { d with keepMouseGrab := on_ }
    let d :=
      if on_ then
        { d with interactionFlags := d.interactionFlags ||| TextSelectableByMouse }
      else
        { d with interactionFlags := clearFlag d.interactionFlags TextSelectableByMouse }
    emit d (.selectByMouseChanged on_)
  else d

/-- Model of `QQuickTextControl::canPaste()` (the control's code is not among the
sources): an editable control can paste what the clipboard offers. -/
def controlCanPaste (d : QQuickTextEditPrivate) : Bool :=
  testFlag d.interactionFlags TextEditable && d.clipboardInsertable

/-- `QQuickTextEdit::q_canPasteChanged()`. -/
def q_canPasteChanged (d : QQuickTextEditPrivate) : QQuickTextEditPrivate :=
  let old := d.canPaste
  let d := { d with canPaste := controlCanPaste d }
  let changed := old != d.canPaste || !d.canPasteValid
  let d := { d with canPasteValid := true }
  if changed then emit d .canPasteChanged else d

/-- Model of `QQuickTextControl::moveCursor(QTextCursor::End)` (the control's
code is not among the sources): the control's cursor goes to the last position
of the document and the selection is dropped. -/
def moveCursorEnd (d : QQuickTextEditPrivate) : QQuickTextEditPrivate :=
  { d with cursor := { anchor := characterCount d - 1, position := characterCount d - 1 } }

/-- `QQuickTextEdit::setReadOnly(r)`. -/
def setReadOnly (d : QQuickTextEditPrivate) (r : Bool) : QQuickTextEditPrivate :=
  if r = isReadOnly d then d
  else
    let d := { d with acceptsInputMethod := !r }
    let flags := LinksAccessibleByMouse
    let flags := if d.selectByMouse then flags ||| TextSelectableByMouse else flags
    let flags :=
      if d.selectByKeyboardSet && d.selectByKeyboard then flags ||| TextSelectableByKeyboard
      else if !d.selectByKeyboardSet && !r then flags ||| TextSelectableByKeyboard
      else flags
    let flags := if !r then flags ||| TextEditable else flags
    let d := { d with interactionFlags := flags }
    let d := if !r then moveCursorEnd d else d
    let d := q_canPasteChanged d
    let d := emit d (.readOnlyChanged r)
    if !d.selectByKeyboardSet then emit d (.selectByKeyboardChanged (!r)) else d

/-- The calls that change the interaction flags. -/
inductive FlagCall where
  | setReadOnly (r : Bool)
  | setSelectByKeyboard (enabled : Bool)
  | setSelectByMouse (enabled : Bool)
  deriving DecidableEq, Repr

/-- One call applied to the item. -/
def applyCall (d : QQuickTextEditPrivate) : FlagCall → QQuickTextEditPrivate
  | .setReadOnly r => setReadOnly d r
  | .setSelectByKeyboard b => setSelectByKeyboard d b
  | .setSelectByMouse b => setSelectByMouse d b

/-- A sequence of calls applied to a freshly constructed item, first call first. -/
def afterCalls (calls : List FlagCall) : QQuickTextEditPrivate :=
  calls.foldl applyCall (init constructed)

/-- The argument of the last `setSelectByKeyboard` seen so far, after one more call. -/
def noteCall (last : Option Bool) : FlagCall → Option Bool
  | .setSelectByKeyboard b => some b
  | _ => last

/-- The argument of the last `setSelectByKeyboard` among the calls, if any. -/
def lastSelectByKeyboard (calls : List FlagCall) : Option Bool :=
  calls.foldl noteCall none

/-- What holds of the item however it was driven, given the argument `last` of
the latest `setSelectByKeyboard`: the two `selectByKeyboard` members record that
call, and the control's flags agree with the item's properties. -/
def FlagRule (last : Option Bool) (d : QQuickTextEditPrivate) : Prop :=
  d.selectByKeyboardSet = last.isSome ∧
  (∀ b, last = some b → d.selectByKeyboard = b) ∧
  testFlag d.interactionFlags TextSelectableByKeyboard = selectByKeyboard d ∧
  testFlag d.interactionFlags LinksAccessibleByMouse = true ∧
  testFlag d.interactionFlags TextSelectableByMouse = selectByMouse d

/-! ### Horizontal alignment -/

/-- `QQuickTextEdit::hAlign()`. -/
def hAlign (d : QQuickTextEditPrivate) : HAlignment := d.hAlign

/-- `QQuickTextEdit::effectiveHAlign()`. -/
def effectiveHAlign (d : QQuickTextEditPrivate) : HAlignment :=
  let effectiveAlignment := d.hAlign
  if !d.hAlignImplicit && d.effectiveLayoutMirror then
    match d.hAlign with
    | .AlignLeft => .AlignRight
    | .AlignRight => .AlignLeft
    | _ => effectiveAlignment
  else effectiveAlignment

/-! ### Editing the document -/

/-- `qBound(min, val, max)`. -/
def qBound (lo val hi : Int) : Int := max lo (min hi val)

/-- What the item needs from Qt's rich-text support: the test
`Qt::mightBeRichText` and the characters a document holds after
`QTextCursor::insertHtml` at a position. -/
structure RichTextSupport where
  mightBeRichText : List Char → Bool
  insertHtml : List Char → Int → List Char → List Char

/-- Model of how Qt's document moves the cursors that point into it: a change
at `positionOfChange` that adds (or, when negative, removes) `delta` characters
shifts a cursor position behind it, and a position inside a removed range
falls back to the start of the range. -/
def adjustPosition (positionOfChange delta x : Int) : Int :=
  if x < positionOfChange then x
  else if delta < 0 ∧ x < positionOfChange - delta then positionOfChange
  else x + delta

/-- The document gets new characters; the control's cursor is shifted by the
change, which happened at `positionOfChange`. -/
def documentChanged (d : QQuickTextEditPrivate) (newText : List Char) (positionOfChange : Int) :
    QQuickTextEditPrivate :=
  let delta : Int := (newText.length : Int) - (d.text.length : Int)
  { d with
    text := newText
    cursor :=
      { anchor := adjustPosition positionOfChange delta d.cursor.anchor
        position := adjustPosition positionOfChange delta d.cursor.position } }

/-- The character `QChar::ParagraphSeparator`, which Qt's document stores for a
block separator. -/
def ParagraphSeparator : Char := Char.ofNat 0x2029

/-- The character `QChar::LineSeparator`. -/
def LineSeparator : Char := Char.ofNat 0x2028

/-- The character `QTextBeginningOfFrame`. -/
def QTextBeginningOfFrame : Char := Char.ofNat 0xFDD0

/-- The character `QTextEndOfFrame`. -/
def QTextEndOfFrame : Char := Char.ofNat 0xFDD1

/-- The character `QChar::Nbsp`. -/
def Nbsp : Char := Char.ofNat 0xA0

/-- The characters at which `QTextCursor::insertText` starts a new block. -/
def startsBlock (ch : Char) : Bool :=
  ch == '\n' || ch == ParagraphSeparator || ch == QTextBeginningOfFrame
    || ch == QTextEndOfFrame || ch == '\r'

/-- Model of the loop of `QTextCursor::insertText` (Qt's code): what the
document stores for an inserted text.  A carriage return followed by a line
feed is taken as one character; a line feed, a paragraph separator, a frame
mark or a carriage return becomes one block separator; every other character
is stored as it is. -/
def storedCharacters : List Char → List Char
  | [] => []
  | ch :: rest =>
    if ch = '\r' then
      match rest with
      | [] => [ParagraphSeparator]
      | next :: rest2 =>
        if next = '\n' then ParagraphSeparator :: storedCharacters rest2
        else ParagraphSeparator :: storedCharacters (next :: rest2)
    else if startsBlock ch then ParagraphSeparator :: storedCharacters rest
    else ch :: storedCharacters rest

/-- Model of the replacement `QTextDocument::toPlainText` (Qt's code) makes for
one stored character: block, frame and line separators read as a line feed, a
no-break space as a blank. -/
def plainCharacter (c : Char) : Char :=
  if c = QTextBeginningOfFrame ∨ c = QTextEndOfFrame ∨ c = ParagraphSeparator
      ∨ c = LineSeparator then '\n'
  else if c = Nbsp then ' '
  else c

/-- Model of `QTextDocument::toPlainText` (Qt's code) on stored characters. -/
def toPlainText (chars : List Char) : List Char := chars.map plainCharacter

/-- The characters that read back from the document as they were inserted:
all but the carriage return, the paragraph and line separators, the frame marks
and the no-break space. -/
def readsAsWritten (c : Char) : Bool :=
  c != '\r' && c != ParagraphSeparator && c != LineSeparator && c != QTextBeginningOfFrame
    && c != QTextEndOfFrame && c != Nbsp

/-- Model of `QTextCursor::insertText` (Qt's code): the characters of the
document after the cursor's selection is replaced by `s`, the inserted part as
the document stores it and `toPlainText` reads it back. -/
def insertText (text : List Char) (c : QTextCursor) (s : List Char) : List Char :=
  text.take c.selectionStart.toNat ++ toPlainText (storedCharacters s)
    ++ text.drop c.selectionEnd.toNat

/-- Model of `QTextCursor::removeSelectedText` (Qt's code): the characters of
the document without the cursor's selection. -/
def removeSelectedText (text : List Char) (c : QTextCursor) : List Char :=
  text.take c.selectionStart.toNat ++ text.drop c.selectionEnd.toNat

/-- `QQuickTextEdit::insert(position, text)`. -/
def insert (q : RichTextSupport) (d : QQuickTextEditPrivate) (position : Int) (s : List Char) :
    QQuickTextEditPrivate :=
  if position < 0 ∨ position ≥ characterCount d then d
  else
    let cursor : QTextCursor := { anchor := 0, position := 0 }
    let cursor := cursor.setPosition (characterCount d) position .MoveAnchor
    let d := { d with richText := d.richText || (d.format = .AutoText && q.mightBeRichText s) }
    if d.richText then
      documentChanged d (q.insertHtml d.text cursor.position s) cursor.position
    else
      documentChanged d (insertText d.text cursor s) cursor.position

/-- `QQuickTextEdit::remove(start, end)`. -/
def remove (d : QQuickTextEditPrivate) (start end_ : Int) : QQuickTextEditPrivate :=
  let start := qBound 0 start (characterCount d - 1)
  let end_ := qBound 0 end_ (characterCount d - 1)
  let cursor : QTextCursor := { anchor := 0, position := 0 }
  let cursor := cursor.setPosition (characterCount d) start .MoveAnchor
  let cursor := cursor.setPosition (characterCount d) end_ .KeepAnchor
  documentChanged d (removeSelectedText d.text cursor) cursor.selectionStart

/-- A freshly initialised item whose document holds `text` and whose cursor has
the given anchor and position; used to run the functions on concrete input. -/
def sample (text : List Char) (anchor position : Int) : QQuickTextEditPrivate :=
  { init constructed with text := text, cursor := { anchor := anchor, position := position } }

/-- A rich-text support that takes no text for rich text. -/
def plainOnly : RichTextSupport where
  mightBeRichText := fun _ => false
  insertHtml := fun text _ _ => text

/-- The line "abcdefg    hij": a word, four blanks, a word. -/
def wordGapWord : List Char :=
  ['a', 'b', 'c', 'd', 'e', 'f', 'g', ' ', ' ', ' ', ' ', 'h', 'i', 'j']

/-- The line "123456789". -/
def nineDigits : List Char := ['1', '2', '3', '4', '5', '6', '7', '8', '9']

end QQuickTextEdit

/-! ## QQmlComponent -/

/-- A URL; the empty URL is the empty string. -/
structure QUrl where
  value : String
  deriving DecidableEq, Repr

/-- `QUrl()`. -/
def QUrl.empty : QUrl := { value := "" }

/-- `QUrl::isEmpty()`. -/
def QUrl.isEmpty (u : QUrl) : Bool := u.value == ""

/-- An error of the QML engine. -/
structure QQmlError where
  url : QUrl
  line : Int
  column : Int
  description : String
  deriving DecidableEq, Repr

/-- `QQmlComponent::Status`. -/
inductive Status where
  | Null
  | Ready
  | Loading
  | Error
  deriving DecidableEq, Repr

/-- Modelled from the spec: the state of a `QQmlComponent`, whose implementation
(`qqmlcomponent.cpp`) is not among the sources; only its test
`tst_qqmlcomponent.cpp` is.  A component may have an engine, may be waiting for
its type data, may hold compiled data, and keeps the errors of its last load. -/
structure QQmlComponent where
  hasEngine : Bool
  loading : Bool
  compiled : Bool
  errors : List QQmlError
  deriving DecidableEq, Repr

namespace QQmlComponent

/-- Modelled from the spec: `QQmlComponent()` and `QQmlComponent(&engine)`,
which the test `null` expects to be null: nothing loaded, no errors. -/
def create (withEngine : Bool) : QQmlComponent :=
  { hasEngine := withEngine, loading := false, compiled := false, errors := [] }

/-- Modelled from the spec: `QQmlComponent::status()`, read off the tests: a
component with errors is in `Error`, one that loaded nothing is `Null`. -/
def status (c : QQmlComponent) : Status :=
  if c.loading then .Loading
  else if !c.errors.isEmpty then .Error
  else if c.hasEngine && c.compiled then .Ready
  else .Null

/-- `QQmlComponent::isNull()`. -/
def isNull (c : QQmlComponent) : Bool := status c == .Null

/-- `QQmlComponent::isError()`. -/
def isError (c : QQmlComponent) : Bool := status c == .Error

/-- Modelled from the spec: `QQmlComponent::loadUrl(url)` as the test
`loadEmptyUrl` fixes it: what an earlier load left is dropped; an empty URL is
refused with the single error "Invalid empty URL" that carries no location
(empty url, line and column -1); any other URL starts loading. -/
def loadUrl (c : QQmlComponent) (url : QUrl) : QQmlComponent :=
  let c := { c with loading := false, compiled := false, errors := [] }
  if url.isEmpty then
    { c with errors := c.errors ++
        [{ url := QUrl.empty, line := -1, column := -1, description := "Invalid empty URL" }] }
  else
    { c with loading := true }

end QQmlComponent

/-! ## Theorems -/

namespace QQuickTextEdit

open QTextCursor

/-- The document always has its terminating position: `characterCount` is
`length() + 1`. -/
theorem characterCount_eq_length_succ (d : QQuickTextEditPrivate) :
    characterCount d = length d + 1 := by
  unfold length characterCount
  omega

/-- The length of the item is the number of characters of its document. -/
theorem length_eq (d : QQuickTextEditPrivate) : length d = (d.text.length : Int) := by
  unfold length characterCount
  omega

/-- C1: when `start` or `end` is negative or not below `characterCount`
(which is `length() + 1`), `select(start, end)` returns without touching
anything: the cursor's anchor and position, and with them `selectionStart()`,
`selectionEnd()` and `cursorPosition()`, are what they were. -/
theorem select_out_of_range (d : QQuickTextEditPrivate) (start end_ : Int)
    (h : start < 0 ∨ end_ < 0 ∨ start ≥ length d + 1 ∨ end_ ≥ length d + 1) :
    (select d start end_).cursor.anchor = d.cursor.anchor ∧
    (select d start end_).cursor.position = d.cursor.position ∧
    selectionStart (select d start end_) = selectionStart d ∧
    selectionEnd (select d start end_) = selectionEnd d ∧
    cursorPosition (select d start end_) = cursorPosition d ∧
    select d start end_ = d := by
  have hd : select d start end_ = d := by
    rw [← characterCount_eq_length_succ] at h
    unfold select
    rw [if_pos h]
  rw [hd]
  exact ⟨rfl, rfl, rfl, rfl, rfl, rfl⟩

/-- The cursor `select` leaves behind when both ends are inside the document. -/
theorem select_cursor (d : QQuickTextEditPrivate) (start end_ : Int)
    (hs : 0 ≤ start ∧ start ≤ length d) (he : 0 ≤ end_ ∧ end_ ≤ length d) :
    (select d start end_).cursor = { anchor := start, position := end_ } := by
  have hc := characterCount_eq_length_succ d
  have hg : ¬ (start < 0 ∨ end_ < 0 ∨ start ≥ characterCount d ∨ end_ ≥ characterCount d) := by
    omega
  have h1 : ¬ (start < 0 ∨ start ≥ characterCount d) := by omega
  have h2 : ¬ (end_ < 0 ∨ end_ ≥ characterCount d) := by omega
  unfold select
  rw [if_neg hg]
  simp only [setPosition, if_neg h1, if_neg h2, updateSelection, setTextCursor, emit]
  split_ifs <;> rfl

/-- C2: for `start` and `end` between 0 and `length()`, after
`select(start, end)` the anchor is `start` and the cursor position is `end`,
so `selectionStart()` is the lesser and `selectionEnd()` the greater of the
two, in whichever order they were passed. -/
theorem select_in_range (d : QQuickTextEditPrivate) (start end_ : Int)
    (hs : 0 ≤ start ∧ start ≤ length d) (he : 0 ≤ end_ ∧ end_ ≤ length d) :
    selectionStart (select d start end_) = min start end_ ∧
    selectionEnd (select d start end_) = max start end_ ∧
    (select d start end_).cursor.anchor = start ∧
    cursorPosition (select d start end_) = end_ := by
  have hc := select_cursor d start end_ hs he
  unfold selectionStart selectionEnd cursorPosition QTextCursor.selectionStart
    QTextCursor.selectionEnd
  rw [hc]
  exact ⟨min_comm _ _, max_comm _ _, rfl, rfl⟩

/-- Instance of C1 on "hello": `select(2, 6)` has `end` past the last position. -/
theorem select_out_of_range_witness :
    select (sample ['h', 'e', 'l', 'l', 'o'] 1 3) 2 6 = sample ['h', 'e', 'l', 'l', 'o'] 1 3 :=
  (select_out_of_range (sample ['h', 'e', 'l', 'l', 'o'] 1 3) 2 6 (by decide)).2.2.2.2.2

/-- Instance of C2 on "hello": `select(4, 1)` selects from 1 to 4. -/
theorem select_in_range_witness :
    selectionStart (select (sample ['h', 'e', 'l', 'l', 'o'] 0 0) 4 1) = 1 ∧
    selectionEnd (select (sample ['h', 'e', 'l', 'l', 'o'] 0 0) 4 1) = 4 :=
  ⟨(select_in_range (sample ['h', 'e', 'l', 'l', 'o'] 0 0) 4 1 (by decide) (by decide)).1,
   (select_in_range (sample ['h', 'e', 'l', 'l', 'o'] 0 0) 4 1 (by decide) (by decide)).2.1⟩

/-- With `SelectCharacters` the two-argument overload is the one-argument one. -/
theorem selectCharacters_overloads_agree (w : WordMotion) (d : QQuickTextEditPrivate)
    (pos : Int) :
    moveCursorSelection w d pos .SelectCharacters = moveCursorSelectionPos d pos := by
  unfold moveCursorSelection moveCursorSelectionPos
  simp

/-- The cursor after `moveCursorSelection(pos)` for a position inside the
document that is not the cursor position. -/
theorem moveCursorSelectionPos_cursor (d : QQuickTextEditPrivate) (pos : Int)
    (hpos : 0 ≤ pos ∧ pos < characterCount d) (hne : d.cursor.position ≠ pos) :
    (moveCursorSelectionPos d pos).cursor = { anchor := d.cursor.anchor, position := pos } := by
  have h1 : ¬ (pos < 0 ∨ pos ≥ characterCount d) := by omega
  unfold moveCursorSelectionPos
  simp only [if_neg hne, setPosition, if_neg h1, setTextCursor]

/-- C3: for a position `pos` inside the document, `moveCursorSelection(pos,
SelectCharacters)` and `moveCursorSelection(pos)` do the same: the anchor stays,
the cursor position becomes `pos`, so the selection is from the lesser to the
greater of anchor and `pos`; when `pos` is already the cursor position nothing
changes.  The documented example: on a text of at least 9 characters,
`cursorPosition = 5`, then `moveCursorSelection(9)`, then
`moveCursorSelection(7)` leaves `selectionStart() = 5`, `selectionEnd() = 7`. -/
theorem moveCursorSelection_characters (w : WordMotion) (d : QQuickTextEditPrivate)
    (pos : Int) (hpos : 0 ≤ pos ∧ pos < characterCount d) :
    moveCursorSelectionPos d pos = moveCursorSelection w d pos .SelectCharacters ∧
    (moveCursorSelection w d pos .SelectCharacters).cursor.anchor = d.cursor.anchor ∧
    cursorPosition (moveCursorSelection w d pos .SelectCharacters) = pos ∧
    selectionStart (moveCursorSelection w d pos .SelectCharacters) = min d.cursor.anchor pos ∧
    selectionEnd (moveCursorSelection w d pos .SelectCharacters) = max d.cursor.anchor pos ∧
    (pos = d.cursor.position → moveCursorSelection w d pos .SelectCharacters = d) ∧
    (9 ≤ length d →
      selectionStart (moveCursorSelection w (moveCursorSelection w (setCursorPosition d 5) 9
        .SelectCharacters) 7 .SelectCharacters) = 5 ∧
      selectionEnd (moveCursorSelection w (moveCursorSelection w (setCursorPosition d 5) 9
        .SelectCharacters) 7 .SelectCharacters) = 7) := by
  have key : ∀ (e : QQuickTextEditPrivate) (q : Int), 0 ≤ q ∧ q < characterCount e →
      (moveCursorSelectionPos e q).cursor = { anchor := e.cursor.anchor, position := q } ∧
      (moveCursorSelectionPos e q).text = e.text := by
    intro e q hq
    by_cases hne : e.cursor.position = q
    · have : moveCursorSelectionPos e q = e := by
        unfold moveCursorSelectionPos
        simp [hne]
      rw [this]
      refine ⟨?_, rfl⟩
      cases hc : e.cursor
      rw [hc] at hne
      simp only at hne
      rw [hne]
    · refine ⟨moveCursorSelectionPos_cursor e q hq hne, ?_⟩
      unfold moveCursorSelectionPos
      simp [hne, setTextCursor]
  simp only [selectCharacters_overloads_agree]
  have hk := (key d pos hpos).1
  refine ⟨trivial, ?_, ?_, ?_, ?_, ?_, ?_⟩
  · rw [hk]
  · unfold cursorPosition
    rw [hk]
  · unfold selectionStart QTextCursor.selectionStart
    rw [hk]
    exact min_comm _ _
  · unfold selectionEnd QTextCursor.selectionEnd
    rw [hk]
    exact max_comm _ _
  · intro hp
    unfold moveCursorSelectionPos
    simp [hp]
  · intro hlen
    have hl := length_eq d
    have hcc : characterCount d = (d.text.length : Int) + 1 := rfl
    -- `cursorPosition = 5`
    have h5 : (setCursorPosition d 5).cursor = { anchor := 5, position := 5 } ∧
        (setCursorPosition d 5).text = d.text := by
      have hg : ¬ ((5 : Int) < 0 ∨ (5 : Int) ≥ characterCount d) := by omega
      unfold setCursorPosition
      rw [if_neg hg]
      by_cases hat : d.cursor.position = 5 ∧ d.cursor.anchor = 5
      · rw [if_pos hat]
        refine ⟨?_, rfl⟩
        cases hc : d.cursor
        rw [hc] at hat
        simp only at hat
        rw [hat.1, hat.2]
      · rw [if_neg hat]
        unfold setPosition setTextCursor
        rw [if_neg hg]
        exact ⟨rfl, rfl⟩
    have hcc5 : characterCount (setCursorPosition d 5) = characterCount d := by
      unfold characterCount
      rw [h5.2]
    have h9 := key (setCursorPosition d 5) 9 (by omega)
    have hcc9 : characterCount (moveCursorSelectionPos (setCursorPosition d 5) 9)
        = characterCount d := by
      unfold characterCount
      rw [h9.2, h5.2]
    have h7 := key (moveCursorSelectionPos (setCursorPosition d 5) 9) 7 (by omega)
    unfold selectionStart selectionEnd QTextCursor.selectionStart QTextCursor.selectionEnd
    rw [h7.1, h9.1, h5.1]
    exact ⟨by decide, by decide⟩

/-- Instance of C3, the documented example on "123456789". -/
theorem moveCursorSelection_characters_witness :
    selectionStart (moveCursorSelection (blankSeparated nineDigits)
      (moveCursorSelection (blankSeparated nineDigits) (setCursorPosition (sample nineDigits 0 0) 5)
        9 .SelectCharacters) 7 .SelectCharacters) = 5 ∧
    selectionEnd (moveCursorSelection (blankSeparated nineDigits)
      (moveCursorSelection (blankSeparated nineDigits) (setCursorPosition (sample nineDigits 0 0) 5)
        9 .SelectCharacters) 7 .SelectCharacters) = 7 :=
  (moveCursorSelection_characters (blankSeparated nineDigits) (sample nineDigits 0 0) 3
    (by decide)).2.2.2.2.2.2 (by decide)

/-- Skipping backwards never moves forward. -/
theorem skipBackward_le (p : Nat → Bool) (n : Nat) : skipBackward p n ≤ n := by
  induction n with
  | zero => simp [skipBackward]
  | succ k ih =>
    unfold skipBackward
    split_ifs
    · omega
    · exact le_refl _

/-- Skipping backwards over a character that qualifies passes it. -/
theorem skipBackward_succ_le (p : Nat → Bool) (n : Nat) (h : p n = true) :
    skipBackward p (n + 1) ≤ n := by
  have := skipBackward_le p n
  unfold skipBackward
  simp [h, this]

/-- Skipping forwards never moves backward. -/
theorem skipForwardAux_ge (p : Nat → Bool) (fuel pos : Nat) :
    pos ≤ skipForwardAux p fuel pos := by
  induction fuel generalizing pos with
  | zero => simp [skipForwardAux]
  | succ k ih =>
    unfold skipForwardAux
    split_ifs
    · have := ih (pos + 1)
      omega
    · exact le_refl _

/-- The previous word boundary is not behind the start. -/
theorem previousCursorPosition_le (text : List Char) (x : Nat) :
    previousCursorPosition text x ≤ x := by
  unfold previousCursorPosition
  split_ifs
  · exact le_refl _
  · have h1 := skipBackward_le (isSpaceAt text) x
    have h2 := skipBackward_le (fun i => !isSpaceAt text i) (skipBackward (isSpaceAt text) x)
    simp only
    omega

/-- From behind a character, the previous word boundary is in front of it. -/
theorem previousCursorPosition_succ_le (text : List Char) (x : Nat) (hx : x < text.length) :
    previousCursorPosition text (x + 1) ≤ x := by
  unfold previousCursorPosition
  have hg : ¬ (x + 1 = 0 ∨ x + 1 > text.length) := by omega
  rw [if_neg hg]
  simp only
  by_cases hs : isSpaceAt text x = true
  · have h1 := skipBackward_succ_le (isSpaceAt text) x hs
    have h2 := skipBackward_le (fun i => !isSpaceAt text i) (skipBackward (isSpaceAt text) (x + 1))
    omega
  · have h1 : skipBackward (isSpaceAt text) (x + 1) = x + 1 := by
      unfold skipBackward
      simp [hs]
    rw [h1]
    exact skipBackward_succ_le _ x (by simp [hs])

/-- On a line, `StartOfWord` never moves forward. -/
theorem lineStartOfWord_le (text : List Char) (x : Nat) : lineStartOfWord text x ≤ x := by
  unfold lineStartOfWord
  split_ifs with h0 h1 h2
  · exact le_refl _
  · exact le_refl _
  · exact previousCursorPosition_succ_le text x h2
  · exact previousCursorPosition_le text x

/-- On a line, `EndOfWord` never moves backward. -/
theorem lineEndOfWord_ge (text : List Char) (x : Nat) : x ≤ lineEndOfWord text x := by
  unfold lineEndOfWord
  split_ifs
  · exact le_refl _
  · exact skipForwardAux_ge _ _ _

/-- The navigation of a line of blank-separated words is directed as assumed of
word navigation in general. -/
theorem blankSeparated_directed (text : List Char) : (blankSeparated text).Directed := by
  refine ⟨?_, ?_, ?_⟩ <;> intro x <;> simp only [blankSeparated, onPositions] <;> split_ifs
  · exact le_refl _
  · have := lineStartOfWord_le text x.toNat
    omega
  · exact le_refl _
  · have := previousCursorPosition_le text x.toNat
    omega
  · exact le_refl _
  · have := lineEndOfWord_ge text x.toNat
    omega

/-- What of C4 holds whatever the words are: let the cursor be inside the
document with anchor `a` and position `p`, let `pos` be inside the document and
differ from `p`, and let `StartOfWord` / `PreviousWord` never move forward and
`EndOfWord` never move backward.  After `moveCursorSelection(pos, SelectWords)`
the selection reaches over the previous anchor: selecting forwards (`a < pos`,
or `a = pos` and `p < pos`) `selectionStart() ≤ min a pos`, selecting backwards
`selectionEnd() ≥ max a pos`. -/
theorem moveCursorSelection_anchor_side (w : WordMotion) (d : QQuickTextEditPrivate) (pos : Int)
    (hw : w.Directed) (hv : d.cursor.Valid (characterCount d))
    (hpos : 0 ≤ pos ∧ pos < characterCount d) (hne : pos ≠ d.cursor.position) :
    ((d.cursor.anchor < pos ∨ (d.cursor.anchor = pos ∧ d.cursor.position < pos)) →
      selectionStart (moveCursorSelection w d pos .SelectWords) ≤ min d.cursor.anchor pos) ∧
    ((d.cursor.anchor > pos ∨ (d.cursor.anchor = pos ∧ d.cursor.position > pos)) →
      max d.cursor.anchor pos ≤ selectionEnd (moveCursorSelection w d pos .SelectWords)) := by
  obtain ⟨hS, hW, hE⟩ := hw
  unfold moveCursorSelection selectionStart selectionEnd
  simp only [setTextCursor, QTextCursor.selectionStart, QTextCursor.selectionEnd]
  unfold Valid at hv
  generalize characterCount d = n at *
  generalize d.cursor = c at *
  obtain ⟨a, p⟩ := c
  simp only at hv hne ⊢
  have hne2 : ¬ (p = pos) := fun h => hne h.symm
  have ha : ¬ (a < 0 ∨ a ≥ n) := by omega
  have hp : ¬ (pos < 0 ∨ pos ≥ n) := by omega
  have e1 := hS a
  have e2 := hW a
  have e3 := hS pos
  have e4 := hE (w.startOfWord pos)
  have e5 := hE a
  have e6 := hE pos
  have e7 := hE (w.previousCharacter a)
  have e8 := hW (w.startOfWord a)
  simp only [if_neg hne2, setPosition, movePosition, WordMotion.target, if_neg ha, if_neg hp,
    reduceCtorEq, if_false]
  constructor
  · intro hf
    rw [if_pos hf]
    split_ifs <;> simp only [] <;> omega
  · intro hb
    have hnf : ¬ (a < pos ∨ (a = pos ∧ p < pos)) := by omega
    rw [if_neg hnf, if_pos hb]
    split_ifs <;> simp only [] <;> omega

/-- C4 does not hold of the code, against the function's own documentation
("extend the selection end to a word boundary on or past position 9").  On
"abcdefg    hij" the documented sequence `cursorPosition = 5`,
`moveCursorSelection(9, SelectWords)`, `moveCursorSelection(7, SelectWords)` is
run with a navigation that never moves forward for `StartOfWord` and never
backward for `EndOfWord`, from a valid cursor, to the position 9 inside the
document.  Position 9 lies in the blanks behind "abcdefg": `StartOfWord` goes
back to 0 and `EndOfWord` from there stops at 7.  After the first call the
selection is from 0 to 7, so `selectionEnd()` is below `max 5 9 = 9`; the second
call finds the cursor at 7 and leaves it. -/
theorem moveCursorSelection_words_short :
    (blankSeparated wordGapWord).Directed ∧
    (setCursorPosition (sample wordGapWord 0 0) 5).cursor.Valid
      (characterCount (setCursorPosition (sample wordGapWord 0 0) 5)) ∧
    (setCursorPosition (sample wordGapWord 0 0) 5).cursor = { anchor := 5, position := 5 } ∧
    (0 ≤ (9 : Int) ∧ (9 : Int) < characterCount (setCursorPosition (sample wordGapWord 0 0) 5)) ∧
    selectionStart (moveCursorSelection (blankSeparated wordGapWord)
      (setCursorPosition (sample wordGapWord 0 0) 5) 9 .SelectWords) = 0 ∧
    selectionEnd (moveCursorSelection (blankSeparated wordGapWord)
      (setCursorPosition (sample wordGapWord 0 0) 5) 9 .SelectWords) = 7 ∧
    ¬ (max 5 9 ≤ selectionEnd (moveCursorSelection (blankSeparated wordGapWord)
      (setCursorPosition (sample wordGapWord 0 0) 5) 9 .SelectWords)) ∧
    selectionEnd (moveCursorSelection (blankSeparated wordGapWord)
      (moveCursorSelection (blankSeparated wordGapWord)
        (setCursorPosition (sample wordGapWord 0 0) 5) 9 .SelectWords) 7 .SelectWords) = 7 :=
  ⟨blankSeparated_directed wordGapWord, by decide, by decide, by decide, by decide, by decide,
    by decide, by decide⟩

/-- Masking with a single bit leaves that bit or nothing. -/
theorem and_two_pow_eq (f k : Nat) : f &&& 2 ^ k = if f.testBit k then 2 ^ k else 0 := by
  apply Nat.eq_of_testBit_eq
  intro i
  rw [Nat.testBit_and, Nat.testBit_two_pow]
  by_cases hki : k = i
  · subst hki
    cases h : f.testBit k <;> simp [Nat.testBit_two_pow]
  · cases h : f.testBit k <;> simp [hki, Nat.testBit_two_pow]

/-- Testing a flag is testing its bit. -/
theorem testFlag_two_pow (f k : Nat) : testFlag f (2 ^ k) = f.testBit k := by
  unfold testFlag
  rw [and_two_pow_eq]
  cases h : f.testBit k <;> simp

/-- The bit of `TextSelectableByKeyboard`. -/
theorem testFlag_keyboard (f : Nat) : testFlag f TextSelectableByKeyboard = f.testBit 1 :=
  testFlag_two_pow f 1

/-- The bit of `TextSelectableByMouse`. -/
theorem testFlag_mouse (f : Nat) : testFlag f TextSelectableByMouse = f.testBit 0 :=
  testFlag_two_pow f 0

/-- The bit of `LinksAccessibleByMouse`. -/
theorem testFlag_links (f : Nat) : testFlag f LinksAccessibleByMouse = f.testBit 2 :=
  testFlag_two_pow f 2

/-- The bit of `TextEditable`. -/
theorem testFlag_editable (f : Nat) : testFlag f TextEditable = f.testBit 4 :=
  testFlag_two_pow f 4

/-- Setting a flag sets its bit and no other. -/
theorem testBit_setFlag (f j k : Nat) :
    (f ||| 2 ^ j).testBit k = (f.testBit k || decide (j = k)) := by
  rw [Nat.testBit_or, Nat.testBit_two_pow]

/-- Clearing a flag clears its bit and keeps the other bits of a 32-bit value. -/
theorem testBit_clearFlag (f j k : Nat) (hj : j < 32) :
    (clearFlag f (2 ^ j)).testBit k = (f.testBit k && decide (k < 32) && !decide (j = k)) := by
  unfold clearFlag
  have h32 : (4294967295 : Nat) = 2 ^ 32 - 1 := by norm_num
  rw [Nat.testBit_and, Nat.testBit_xor, Nat.testBit_two_pow, h32, Nat.testBit_two_pow_sub_one]
  by_cases h1 : k < 32 <;> by_cases h2 : j = k <;> simp [h1, h2]
  omega


/-- A freshly constructed item satisfies the rule. -/
theorem flagRule_init : FlagRule none (init constructed) := by
  refine ⟨rfl, ?_, ?_, ?_, ?_⟩
  · intro b h
    cases h
  · decide
  · decide
  · decide

/-- Emitting a signal changes no flag and no selection property. -/
theorem emit_fields (d : QQuickTextEditPrivate) (s : Signal) :
    (emit d s).interactionFlags = d.interactionFlags ∧
    (emit d s).selectByKeyboardSet = d.selectByKeyboardSet ∧
    (emit d s).selectByKeyboard = d.selectByKeyboard ∧
    (emit d s).selectByMouse = d.selectByMouse :=
  ⟨rfl, rfl, rfl, rfl⟩

/-- Refreshing `canPaste` changes no flag and no selection property. -/
theorem q_canPasteChanged_fields (d : QQuickTextEditPrivate) :
    (q_canPasteChanged d).interactionFlags = d.interactionFlags ∧
    (q_canPasteChanged d).selectByKeyboardSet = d.selectByKeyboardSet ∧
    (q_canPasteChanged d).selectByKeyboard = d.selectByKeyboard ∧
    (q_canPasteChanged d).selectByMouse = d.selectByMouse := by
  unfold q_canPasteChanged emit
  simp only
  split_ifs <;> exact ⟨rfl, rfl, rfl, rfl⟩

/-- The members `setReadOnly` never writes. -/
theorem setReadOnly_fields (d : QQuickTextEditPrivate) (r : Bool) :
    (setReadOnly d r).selectByKeyboardSet = d.selectByKeyboardSet ∧
    (setReadOnly d r).selectByKeyboard = d.selectByKeyboard ∧
    (setReadOnly d r).selectByMouse = d.selectByMouse := by
  unfold setReadOnly
  by_cases hr : r = isReadOnly d
  · rw [if_pos hr]
    exact ⟨rfl, rfl, rfl⟩
  · rw [if_neg hr]
    cases r <;> cases hk : d.selectByKeyboardSet <;>
      simp [hk, (emit_fields _ _).2.1, (emit_fields _ _).2.2.1, (emit_fields _ _).2.2.2,
        (q_canPasteChanged_fields _).2.1, (q_canPasteChanged_fields _).2.2.1,
        (q_canPasteChanged_fields _).2.2.2, moveCursorEnd]

/-- The interaction flags `setReadOnly` installs when `readOnly` changes. -/
theorem setReadOnly_flags (d : QQuickTextEditPrivate) (r : Bool) (hr : ¬ r = isReadOnly d) :
    testFlag (setReadOnly d r).interactionFlags TextEditable = !r ∧
    testFlag (setReadOnly d r).interactionFlags LinksAccessibleByMouse = true ∧
    testFlag (setReadOnly d r).interactionFlags TextSelectableByMouse = d.selectByMouse ∧
    testFlag (setReadOnly d r).interactionFlags TextSelectableByKeyboard =
      (if d.selectByKeyboardSet then d.selectByKeyboard else !r) := by
  unfold setReadOnly
  rw [if_neg hr]
  cases r <;> cases hk : d.selectByKeyboardSet <;> cases hs : d.selectByKeyboard <;>
    cases hm : d.selectByMouse <;>
    simp [hk, hs, hm, (emit_fields _ _).1, (emit_fields _ _).2.1,
      (q_canPasteChanged_fields _).1, (q_canPasteChanged_fields _).2.1, moveCursorEnd] <;>
    decide


/-- Setting one flag, seen through a test of another. -/
theorem testFlag_setFlag (f j k : Nat) :
    testFlag (f ||| 2 ^ j) (2 ^ k) = (testFlag f (2 ^ k) || decide (j = k)) := by
  rw [testFlag_two_pow, testFlag_two_pow, testBit_setFlag]

/-- Clearing one flag, seen through a test of another. -/
theorem testFlag_clearFlag (f j k : Nat) (hj : j < 32) (hk : k < 32) :
    testFlag (clearFlag f (2 ^ j)) (2 ^ k) = (testFlag f (2 ^ k) && !decide (j = k)) := by
  rw [testFlag_two_pow, testFlag_two_pow, testBit_clearFlag f j k hj]
  simp [hk]

/-- The flags and members `setSelectByKeyboard` leaves alone. -/
theorem setSelectByKeyboard_fields (d : QQuickTextEditPrivate) (b : Bool) :
    (setSelectByKeyboard d b).selectByMouse = d.selectByMouse ∧
    testFlag (setSelectByKeyboard d b).interactionFlags TextEditable =
      testFlag d.interactionFlags TextEditable ∧
    testFlag (setSelectByKeyboard d b).interactionFlags LinksAccessibleByMouse =
      testFlag d.interactionFlags LinksAccessibleByMouse ∧
    testFlag (setSelectByKeyboard d b).interactionFlags TextSelectableByMouse =
      testFlag d.interactionFlags TextSelectableByMouse := by
  have s1 := testFlag_setFlag d.interactionFlags 1 4
  have s2 := testFlag_setFlag d.interactionFlags 1 2
  have s3 := testFlag_setFlag d.interactionFlags 1 0
  have c1 := testFlag_clearFlag d.interactionFlags 1 4 (by decide) (by decide)
  have c2 := testFlag_clearFlag d.interactionFlags 1 2 (by decide) (by decide)
  have c3 := testFlag_clearFlag d.interactionFlags 1 0 (by decide) (by decide)
  simp only [Nat.reduceEqDiff, decide_False, Bool.or_false, Bool.not_false, Bool.and_true] at s1 s2 s3 c1 c2 c3
  unfold setSelectByKeyboard
  simp only [emit]
  split_ifs
  · exact ⟨rfl, s1, s2, s3⟩
  · exact ⟨rfl, c1, c2, c3⟩
  · exact ⟨rfl, rfl, rfl, rfl⟩


/-- After `setSelectByKeyboard(b)` the property is set to `b` and so is the flag. -/
theorem setSelectByKeyboard_keyboard (d : QQuickTextEditPrivate) (b : Bool)
    (h : testFlag d.interactionFlags TextSelectableByKeyboard = selectByKeyboard d) :
    (setSelectByKeyboard d b).selectByKeyboardSet = true ∧
    (setSelectByKeyboard d b).selectByKeyboard = b ∧
    testFlag (setSelectByKeyboard d b).interactionFlags TextSelectableByKeyboard = b := by
  have s1 := testFlag_setFlag d.interactionFlags 1 1
  have c1 := testFlag_clearFlag d.interactionFlags 1 1 (by decide) (by decide)
  simp only [decide_True, Bool.or_true, Bool.not_true, Bool.and_false] at s1 c1
  unfold setSelectByKeyboard
  simp only [emit]
  by_cases hc : (!d.selectByKeyboardSet || selectByKeyboard d != b) = true
  · rw [if_pos hc]
    cases b
    · exact ⟨rfl, rfl, c1⟩
    · exact ⟨rfl, rfl, s1⟩
  · rw [if_neg hc]
    have hset : d.selectByKeyboardSet = true := by
      cases hs : d.selectByKeyboardSet <;> simp [hs] at hc ⊢
    have hwas : selectByKeyboard d = b := by
      cases hs : selectByKeyboard d <;> cases b <;> simp [hs, hset] at hc ⊢
    have hval : d.selectByKeyboard = b := by
      rw [← hwas]
      unfold selectByKeyboard
      rw [if_pos hset]
    exact ⟨hset, hval, h.trans hwas⟩

/-- What `setSelectByMouse(b)` keeps, and that flag and property then agree. -/
theorem setSelectByMouse_fields (d : QQuickTextEditPrivate) (b : Bool)
    (h : testFlag d.interactionFlags TextSelectableByMouse = selectByMouse d) :
    (setSelectByMouse d b).selectByKeyboardSet = d.selectByKeyboardSet ∧
    (setSelectByMouse d b).selectByKeyboard = d.selectByKeyboard ∧
    testFlag (setSelectByMouse d b).interactionFlags TextEditable =
      testFlag d.interactionFlags TextEditable ∧
    testFlag (setSelectByMouse d b).interactionFlags LinksAccessibleByMouse =
      testFlag d.interactionFlags LinksAccessibleByMouse ∧
    testFlag (setSelectByMouse d b).interactionFlags TextSelectableByKeyboard =
      testFlag d.interactionFlags TextSelectableByKeyboard ∧
    testFlag (setSelectByMouse d b).interactionFlags TextSelectableByMouse =
      selectByMouse (setSelectByMouse d b) ∧
    selectByMouse (setSelectByMouse d b) = b := by
  have s1 := testFlag_setFlag d.interactionFlags 0 4
  have s2 := testFlag_setFlag d.interactionFlags 0 2
  have s3 := testFlag_setFlag d.interactionFlags 0 1
  have s4 := testFlag_setFlag d.interactionFlags 0 0
  have c1 := testFlag_clearFlag d.interactionFlags 0 4 (by decide) (by decide)
  have c2 := testFlag_clearFlag d.interactionFlags 0 2 (by decide) (by decide)
  have c3 := testFlag_clearFlag d.interactionFlags 0 1 (by decide) (by decide)
  have c4 := testFlag_clearFlag d.interactionFlags 0 0 (by decide) (by decide)
  simp only [Nat.reduceEqDiff, decide_False, Bool.or_false, Bool.not_false, Bool.and_true,
    decide_True, Bool.or_true, Bool.not_true, Bool.and_false] at s1 s2 s3 s4 c1 c2 c3 c4
  unfold setSelectByMouse selectByMouse
  unfold selectByMouse at h
  simp only [emit]
  by_cases hc : (d.selectByMouse != b) = true
  · rw [if_pos hc]
    cases b
    · exact ⟨rfl, rfl, c1, c2, c3, c4, rfl⟩
    · exact ⟨rfl, rfl, s1, s2, s3, s4, rfl⟩
  · rw [if_neg hc]
    have hb : d.selectByMouse = b := by
      cases hs : d.selectByMouse <;> cases b <;> simp [hs] at hc ⊢
    exact ⟨rfl, rfl, rfl, rfl, rfl, h, hb⟩

/-- Every call keeps the rule. -/
theorem flagRule_step (last : Option Bool) (d : QQuickTextEditPrivate) (c : FlagCall)
    (h : FlagRule last d) : FlagRule (noteCall last c) (applyCall d c) := by
  obtain ⟨h1, h2, h3, h4, h5⟩ := h
  cases c with
  | setReadOnly r =>
    simp only [noteCall, applyCall]
    by_cases hr : r = isReadOnly d
    · have hd : setReadOnly d r = d := by
        unfold setReadOnly
        rw [if_pos hr]
      rw [hd]
      exact ⟨h1, h2, h3, h4, h5⟩
    · obtain ⟨e1, e2, e3⟩ := setReadOnly_fields d r
      obtain ⟨f1, f2, f3, f4⟩ := setReadOnly_flags d r hr
      refine ⟨e1.trans h1, fun b hb => e2.trans (h2 b hb), ?_, f2, ?_⟩
      · unfold selectByKeyboard isReadOnly
        rw [f4, f1, e1, e2]
        simp
      · unfold selectByMouse
        rw [f3, e3]
  | setSelectByKeyboard b =>
    simp only [noteCall, applyCall]
    obtain ⟨k1, k2, k3⟩ := setSelectByKeyboard_keyboard d b h3
    obtain ⟨g1, -, g3, g4⟩ := setSelectByKeyboard_fields d b
    refine ⟨k1, ?_, ?_, g3.trans h4, ?_⟩
    · intro v hv
      cases hv
      exact k2
    · unfold selectByKeyboard
      rw [k3, if_pos k1, k2]
    · unfold selectByMouse at h5 ⊢
      rw [g4, g1]
      exact h5
  | setSelectByMouse b =>
    simp only [noteCall, applyCall]
    obtain ⟨m1, m2, m3, m4, m5, m6, -⟩ := setSelectByMouse_fields d b h5
    refine ⟨m1.trans h1, fun v hv => m2.trans (h2 v hv), ?_, m4.trans h4, m6⟩
    unfold selectByKeyboard isReadOnly at h3 ⊢
    rw [m5, m1, m2, m3]
    exact h3

/-- Every sequence of calls keeps the rule. -/
theorem flagRule_foldl (calls : List FlagCall) (last : Option Bool) (d : QQuickTextEditPrivate)
    (h : FlagRule last d) :
    FlagRule (calls.foldl noteCall last) (calls.foldl applyCall d) := by
  induction calls generalizing last d with
  | nil => exact h
  | cons c rest ih => exact ih _ _ (flagRule_step last d c h)

/-- The rule holds in every state reached from construction. -/
theorem flagRule_afterCalls (calls : List FlagCall) :
    FlagRule (lastSelectByKeyboard calls) (afterCalls calls) :=
  flagRule_foldl calls none (init constructed) flagRule_init

/-- C5: `effectiveHAlign()` mirrors the horizontal alignment under layout
mirroring and otherwise returns it: when the alignment was set explicitly
(`hAlignImplicit` false) and `effectiveLayoutMirror` is true, `AlignLeft` gives
`AlignRight`, `AlignRight` gives `AlignLeft`, `AlignHCenter` and `AlignJustify`
give themselves; in every other state the result is `hAlign()`.  The function
only reads the state, and mirroring the mirrored alignment gives `hAlign()`
back. -/
theorem effectiveHAlign_mirror (d : QQuickTextEditPrivate) :
    ((d.hAlignImplicit = false ∧ d.effectiveLayoutMirror = true) →
      (hAlign d = .AlignLeft → effectiveHAlign d = .AlignRight) ∧
      (hAlign d = .AlignRight → effectiveHAlign d = .AlignLeft) ∧
      (hAlign d = .AlignHCenter → effectiveHAlign d = .AlignHCenter) ∧
      (hAlign d = .AlignJustify → effectiveHAlign d = .AlignJustify)) ∧
    (¬ (d.hAlignImplicit = false ∧ d.effectiveLayoutMirror = true) →
      effectiveHAlign d = hAlign d) ∧
    effectiveHAlign { d with hAlign := effectiveHAlign d } = hAlign d := by
  unfold effectiveHAlign hAlign
  cases hi : d.hAlignImplicit <;> cases hm : d.effectiveLayoutMirror <;>
    cases ha : d.hAlign <;> simp

/-- Instance of C5: an explicitly left-aligned item under layout mirroring is
effectively right-aligned, and its `hAlign` still reads `AlignLeft`. -/
theorem effectiveHAlign_mirror_witness :
    effectiveHAlign { constructed with hAlignImplicit := false, effectiveLayoutMirror := true }
      = .AlignRight ∧
    hAlign { constructed with hAlignImplicit := false, effectiveLayoutMirror := true }
      = .AlignLeft :=
  ⟨((effectiveHAlign_mirror
      { constructed with hAlignImplicit := false, effectiveLayoutMirror := true }).1
      ⟨rfl, rfl⟩).1 rfl, rfl⟩

/-- C6: in every state reached from construction through `setReadOnly`,
`setSelectByKeyboard` and `setSelectByMouse`, `selectByKeyboard()` is the
argument of the last `setSelectByKeyboard` call, and `!isReadOnly()` when there
was none; and the control's `TextSelectableByKeyboard` flag is set exactly when
`selectByKeyboard()` is true. -/
theorem selectByKeyboard_rule (calls : List FlagCall) :
    selectByKeyboard (afterCalls calls) =
      (lastSelectByKeyboard calls).getD (!isReadOnly (afterCalls calls)) ∧
    testFlag (afterCalls calls).interactionFlags TextSelectableByKeyboard =
      selectByKeyboard (afterCalls calls) := by
  obtain ⟨h1, h2, h3, -, -⟩ := flagRule_afterCalls calls
  refine ⟨?_, h3⟩
  unfold selectByKeyboard
  cases hl : lastSelectByKeyboard calls with
  | none =>
    rw [hl] at h1
    simp [h1]
  | some b =>
    rw [hl] at h1
    simp [h1, h2 b hl]

/-- Instance of C6: made read-only, a fresh item is no longer selectable by
keyboard; after `setSelectByKeyboard(true)` it stays selectable when it is
made read-only. -/
theorem selectByKeyboard_rule_witness :
    selectByKeyboard (afterCalls [.setReadOnly true]) = false ∧
    selectByKeyboard (afterCalls [.setSelectByKeyboard true, .setReadOnly true]) = true :=
  ⟨(selectByKeyboard_rule [.setReadOnly true]).1.trans (by decide),
   (selectByKeyboard_rule [.setSelectByKeyboard true, .setReadOnly true]).1.trans (by decide)⟩

/-- C7: a freshly initialised item is not read-only, and `setReadOnly(r)` makes
`isReadOnly()` equal `r` in every state, that is the control's `TextEditable`
flag is set exactly when `r` is false.  A call that changes `readOnly` installs
`LinksAccessibleByMouse` and makes `TextSelectableByMouse` equal
`selectByMouse()`; a call with `r` equal to `isReadOnly()` changes nothing and
emits nothing.  So the call keeps `LinksAccessibleByMouse` set and
`TextSelectableByMouse` equal to `selectByMouse()` wherever they were, which is
in every state reached from construction. -/
theorem setReadOnly_faithful (d : QQuickTextEditPrivate) (r : Bool) (calls : List FlagCall) :
    isReadOnly (init constructed) = false ∧
    isReadOnly (setReadOnly d r) = r ∧
    testFlag (setReadOnly d r).interactionFlags TextEditable = !r ∧
    (r ≠ isReadOnly d →
      testFlag (setReadOnly d r).interactionFlags LinksAccessibleByMouse = true ∧
      testFlag (setReadOnly d r).interactionFlags TextSelectableByMouse
        = selectByMouse (setReadOnly d r)) ∧
    (r = isReadOnly d → setReadOnly d r = d ∧ (setReadOnly d r).emitted = d.emitted) ∧
    (testFlag d.interactionFlags LinksAccessibleByMouse = true →
      testFlag (setReadOnly d r).interactionFlags LinksAccessibleByMouse = true) ∧
    (testFlag d.interactionFlags TextSelectableByMouse = selectByMouse d →
      testFlag (setReadOnly d r).interactionFlags TextSelectableByMouse
        = selectByMouse (setReadOnly d r)) ∧
    testFlag (setReadOnly (afterCalls calls) r).interactionFlags LinksAccessibleByMouse = true ∧
    testFlag (setReadOnly (afterCalls calls) r).interactionFlags TextSelectableByMouse
      = selectByMouse (setReadOnly (afterCalls calls) r) := by
  have same : ∀ e : QQuickTextEditPrivate, r = isReadOnly e → setReadOnly e r = e := by
    intro e he
    unfold setReadOnly
    rw [if_pos he]
  have changed : ∀ e : QQuickTextEditPrivate, r ≠ isReadOnly e →
      testFlag (setReadOnly e r).interactionFlags TextEditable = (!r) ∧
      testFlag (setReadOnly e r).interactionFlags LinksAccessibleByMouse = true ∧
      testFlag (setReadOnly e r).interactionFlags TextSelectableByMouse
        = selectByMouse (setReadOnly e r) := by
    intro e he
    obtain ⟨f1, f2, f3, -⟩ := setReadOnly_flags e r he
    refine ⟨f1, f2, ?_⟩
    unfold selectByMouse
    rw [f3, (setReadOnly_fields e r).2.2]
  have kept : ∀ e : QQuickTextEditPrivate,
      (testFlag e.interactionFlags LinksAccessibleByMouse = true →
        testFlag (setReadOnly e r).interactionFlags LinksAccessibleByMouse = true) ∧
      (testFlag e.interactionFlags TextSelectableByMouse = selectByMouse e →
        testFlag (setReadOnly e r).interactionFlags TextSelectableByMouse
          = selectByMouse (setReadOnly e r)) := by
    intro e
    by_cases he : r = isReadOnly e
    · rw [same e he]
      exact ⟨id, id⟩
    · exact ⟨fun _ => (changed e he).2.1, fun _ => (changed e he).2.2⟩
  have hedit : testFlag (setReadOnly d r).interactionFlags TextEditable = !r := by
    by_cases hd : r = isReadOnly d
    · rw [same d hd]
      unfold isReadOnly at hd
      rw [hd]
      simp
    · exact (changed d hd).1
  obtain ⟨-, -, -, r4, r5⟩ := flagRule_afterCalls calls
  refine ⟨by decide, ?_, hedit, fun hd => (changed d hd).2, ?_, (kept d).1, (kept d).2,
    (kept _).1 r4, (kept _).2 r5⟩
  · unfold isReadOnly
    rw [hedit]
    simp
  · intro hd
    rw [same d hd]
    exact ⟨rfl, rfl⟩

/-- Instance of C7: making a fresh item read-only clears `TextEditable`, and
asking again for what it already is leaves the item as it was. -/
theorem setReadOnly_faithful_witness :
    (testFlag (setReadOnly (init constructed) true).interactionFlags LinksAccessibleByMouse = true ∧
      testFlag (setReadOnly (init constructed) true).interactionFlags TextSelectableByMouse
        = selectByMouse (setReadOnly (init constructed) true)) ∧
    setReadOnly (init constructed) false = init constructed :=
  ⟨(setReadOnly_faithful (init constructed) true []).2.2.2.1 (by decide),
   ((setReadOnly_faithful (init constructed) false []).2.2.2.2.1 (by decide)).1⟩

/-- Characters that read back as written are stored and read back unchanged. -/
theorem toPlainText_storedCharacters (s : List Char) (h : s.all readsAsWritten = true) :
    toPlainText (storedCharacters s) = s := by
  induction s with
  | nil => rfl
  | cons c rest ih =>
    simp only [List.all_cons, Bool.and_eq_true] at h
    obtain ⟨hc, hrest⟩ := h
    have ih := ih hrest
    simp only [readsAsWritten, Bool.and_eq_true, bne_iff_ne, ne_eq] at hc
    obtain ⟨⟨⟨⟨⟨h1, h2⟩, h3⟩, h4⟩, h5⟩, h6⟩ := hc
    unfold storedCharacters
    rw [if_neg h1]
    by_cases hb : startsBlock c = true
    · rw [if_pos hb]
      have hn : c = '\n' := by
        simp only [startsBlock, Bool.or_eq_true, beq_iff_eq] at hb
        tauto
      unfold toPlainText at ih ⊢
      rw [List.map_cons, ih, hn]
      rfl
    · rw [if_neg hb]
      unfold toPlainText at ih ⊢
      rw [List.map_cons, ih]
      congr 1
      unfold plainCharacter
      rw [if_neg (by tauto), if_neg h6]

/-- C8, as the code has it: `insert(position, text)` inserts the text at the
position.  For an item in the format `PlainText` that holds plain text, and
`0 ≤ position ≤ length()`, afterwards the text is the old text up to
`position`, then the inserted text as the document stores and reads it back,
then the rest of the old text; `length()` has grown by the number of stored
characters, and the item still holds plain text.  When the inserted text has no
carriage return, paragraph or line separator, frame mark or no-break space, it
reads back as it is: the text is the old text up to `position`, then the
inserted text, then the rest, and `length()` has grown by the length of the
inserted text.  For `position < 0` or `position > length()` the call changes
nothing: the document and the `richText` flag are what they were. -/
theorem insert_plain (q : RichTextSupport) (d : QQuickTextEditPrivate) (position : Int)
    (s : List Char) :
    ((d.format = .PlainText ∧ d.richText = false ∧ 0 ≤ position ∧ position ≤ length d) →
      (insert q d position s).text
        = d.text.take position.toNat ++ toPlainText (storedCharacters s)
          ++ d.text.drop position.toNat ∧
      length (insert q d position s) = length d + ((storedCharacters s).length : Int) ∧
      (insert q d position s).richText = false ∧
      (s.all readsAsWritten = true →
        (insert q d position s).text
          = d.text.take position.toNat ++ s ++ d.text.drop position.toNat ∧
        length (insert q d position s) = length d + (s.length : Int))) ∧
    ((position < 0 ∨ position > length d) →
      (insert q d position s).text = d.text ∧
      (insert q d position s).richText = d.richText ∧
      insert q d position s = d) := by
  have hl := length_eq d
  have hcc : characterCount d = (d.text.length : Int) + 1 := rfl
  constructor
  · rintro ⟨hf, hr, h0, h1⟩
    have hg : ¬ (position < 0 ∨ position ≥ characterCount d) := by omega
    have htext : (insert q d position s).text
        = d.text.take position.toNat ++ toPlainText (storedCharacters s)
          ++ d.text.drop position.toNat ∧
        (insert q d position s).richText = false := by
      unfold insert
      rw [if_neg hg]
      simp only [hf, hr, setPosition, if_neg hg, documentChanged, insertText,
        QTextCursor.selectionStart, QTextCursor.selectionEnd, min_self, max_self]
      simp
    have hp : position.toNat ≤ d.text.length := by omega
    have hlen : length (insert q d position s)
        = length d + ((storedCharacters s).length : Int) := by
      rw [length_eq, length_eq, htext.1]
      simp only [List.length_append, List.length_take, List.length_drop, toPlainText,
        List.length_map]
      rw [min_eq_left hp]
      push_cast
      omega
    refine ⟨htext.1, hlen, htext.2, ?_⟩
    intro hs
    have hsame := toPlainText_storedCharacters s hs
    have hcount : (storedCharacters s).length = s.length := by
      have := congrArg List.length hsame
      simpa [toPlainText] using this
    rw [htext.1, hlen, hsame, hcount]
    exact ⟨rfl, rfl⟩
  · intro h
    have hg : position < 0 ∨ position ≥ characterCount d := by omega
    have : insert q d position s = d := by
      unfold insert
      rw [if_pos hg]
    rw [this]
    exact ⟨rfl, rfl, rfl⟩

/-- Instance of C8: inserting "l" at 3 into "helo" gives "hello" and one more
character; inserting at 5 is refused. -/
theorem insert_plain_witness :
    ((insert plainOnly (sample ['h', 'e', 'l', 'o'] 0 0) 3 ['l']).text
        = ['h', 'e', 'l', 'l', 'o'] ∧
      length (insert plainOnly (sample ['h', 'e', 'l', 'o'] 0 0) 3 ['l']) = 5) ∧
    insert plainOnly (sample ['h', 'e', 'l', 'o'] 0 0) 5 ['l'] = sample ['h', 'e', 'l', 'o'] 0 0 :=
  ⟨((insert_plain plainOnly (sample ['h', 'e', 'l', 'o'] 0 0) 3 ['l']).1
      ⟨rfl, rfl, by decide, by decide⟩).2.2.2 (by decide),
   ((insert_plain plainOnly (sample ['h', 'e', 'l', 'o'] 0 0) 5 ['l']).2 (by decide)).2.2⟩

/-- C8 as stated fails for text with a line break: a plain-text item in the
format `PlainText` holds "ab"; `insert(1, "\r\n")` is in range, and the carriage
return and line feed become one block separator.  Afterwards the text reads
"a\nb" and `length()` is 3: it has grown by 1, not by the 2 characters of the
inserted text, and the text is not "a" ++ "\r\n" ++ "b". -/
theorem insert_plain_line_break :
    (sample ['a', 'b'] 0 0).format = .PlainText ∧
    (sample ['a', 'b'] 0 0).richText = false ∧
    (0 ≤ (1 : Int) ∧ (1 : Int) ≤ length (sample ['a', 'b'] 0 0)) ∧
    (insert plainOnly (sample ['a', 'b'] 0 0) 1 ['\r', '\n']).text = ['a', '\n', 'b'] ∧
    length (insert plainOnly (sample ['a', 'b'] 0 0) 1 ['\r', '\n']) = 3 ∧
    ¬ ((insert plainOnly (sample ['a', 'b'] 0 0) 1 ['\r', '\n']).text
        = ['a', 'b'].take 1 ++ ['\r', '\n'] ++ ['a', 'b'].drop 1) ∧
    ¬ (length (insert plainOnly (sample ['a', 'b'] 0 0) 1 ['\r', '\n'])
        = length (sample ['a', 'b'] 0 0) + 2) :=
  ⟨rfl, rfl, by decide, by decide, by decide, by decide, by decide⟩

/-- C9: `remove(start, end)` removes the text between the two positions.  With
`s` and `e` the arguments clamped to `0 .. length()`, the text afterwards is the
old text up to `min s e` followed by the old text from `max s e`, `length()` has
dropped by `|e - s|`, and `remove(start, end)` leaves the item in the same
state as `remove(end, start)`. -/
theorem remove_section (d : QQuickTextEditPrivate) (start end_ : Int) :
    (remove d start end_).text
      = d.text.take (min (max 0 (min (length d) start)) (max 0 (min (length d) end_))).toNat
        ++ d.text.drop (max (max 0 (min (length d) start)) (max 0 (min (length d) end_))).toNat ∧
    length (remove d start end_)
      = length d - |max 0 (min (length d) end_) - max 0 (min (length d) start)| ∧
    remove d start end_ = remove d end_ start := by
  have hl := length_eq d
  have hcc : characterCount d = (d.text.length : Int) + 1 := rfl
  have hb : ∀ x : Int, qBound 0 x (characterCount d - 1) = max 0 (min (length d) x) := by
    intro x
    unfold qBound
    rw [hl, hcc]
    simp
  have hin : ∀ x : Int, ¬ (max 0 (min (length d) x) < 0 ∨ max 0 (min (length d) x) ≥ characterCount d) := by
    intro x
    omega
  have hrem : ∀ a b : Int, remove d a b = documentChanged d
      (d.text.take (min (max 0 (min (length d) a)) (max 0 (min (length d) b))).toNat
        ++ d.text.drop (max (max 0 (min (length d) a)) (max 0 (min (length d) b))).toNat)
      (min (max 0 (min (length d) a)) (max 0 (min (length d) b))) := by
    intro a b
    unfold remove
    simp only [hb, setPosition, if_neg (hin a), if_neg (hin b), removeSelectedText,
      QTextCursor.selectionStart, QTextCursor.selectionEnd]
    rw [min_comm (max 0 (min (length d) b)), max_comm (max 0 (min (length d) b))]
  refine ⟨?_, ?_, ?_⟩
  · rw [hrem]
    rfl
  · rw [length_eq, hrem]
    simp only [documentChanged, List.length_append, List.length_take, List.length_drop]
    rw [hl, abs_eq_max_neg]
    generalize d.text.length = n
    omega
  · rw [hrem, hrem, min_comm (max 0 (min (length d) start)),
      max_comm (max 0 (min (length d) start))]

/-- Instance of C9: removing 1..3 from "hello", in either order, leaves "hlo". -/
theorem remove_section_witness :
    (remove (sample ['h', 'e', 'l', 'l', 'o'] 0 0) 3 1).text = ['h', 'l', 'o'] ∧
    (remove (sample ['h', 'e', 'l', 'l', 'o'] 0 0) 1 3).text = ['h', 'l', 'o'] :=
  ⟨(remove_section (sample ['h', 'e', 'l', 'l', 'o'] 0 0) 3 1).1.trans (by decide),
   (remove_section (sample ['h', 'e', 'l', 'l', 'o'] 0 0) 1 3).1.trans (by decide)⟩

end QQuickTextEdit

namespace QQmlComponent

/-- C10: a default-constructed component, with or without an engine, is null;
and for every component, on an engine or not and whatever it loaded before,
after `loadUrl(QUrl())` the component is in error and `errors()` holds exactly
one error, whose url is the empty URL, whose line and column are -1 and whose
description is "Invalid empty URL". -/
theorem loadUrl_empty (c : QQmlComponent) :
    isNull (create false) = true ∧
    isNull (create true) = true ∧
    isError (loadUrl c QUrl.empty) = true ∧
    (loadUrl c QUrl.empty).errors.length = 1 ∧
    (loadUrl c QUrl.empty).errors
      = [{ url := QUrl.empty, line := -1, column := -1, description := "Invalid empty URL" }] := by
  refine ⟨by decide, by decide, ?_, ?_, ?_⟩
  · unfold isError status loadUrl
    simp [QUrl.isEmpty, QUrl.empty]
  · unfold loadUrl
    simp [QUrl.isEmpty, QUrl.empty]
  · unfold loadUrl
    simp [QUrl.isEmpty, QUrl.empty]

/-- Instance of C10: a fresh component on an engine, loaded with the empty URL. -/
theorem loadUrl_empty_witness :
    isError (loadUrl (create true) QUrl.empty) = true ∧
    (loadUrl (create true) QUrl.empty).errors.length = 1 :=
  ⟨(loadUrl_empty (create true)).2.2.1, (loadUrl_empty (create true)).2.2.2.1⟩

end QQmlComponent

end QtQuick
